import Mathlib

/-!
Verification development for the `ci_guardian` repository.

The definitions below are a shallow embedding of the Python sources:
  * `src/ci_guardian/analysis/parser.py` (log parsing),
  * `src/ci_guardian/analysis/claude.py` (oracle adapter),
  * `src/ci_guardian/webhook/handler.py` (dedup cache and pipeline),
  * `src/ci_guardian/webhook/validator.py` (signature validation).

Text is modelled as `String` / `List Char`; Python regular expressions are
embedded through a small executable backtracking matcher (`reMatch`) over a
regex syntax (`RE`) into which each source pattern is transcribed literally.
All source patterns are anchored with a multi-line `^`, so `finditer` over the
whole text is matching each line at its start, in line order; this is how the
embedding scans.  External library calls (the JSON decoder, the HMAC digest)
are taken as function parameters.
-/

/-- Python ASCII `\s` class: space, tab, newline, carriage return,
vertical tab, form feed. -/
def pySpace (c : Char) : Bool :=
  c = ' ' || c = '\t' || c = '\n' || c = '\r' || c = Char.ofNat 11 || c = Char.ofNat 12

/-- Python `\d` class (ASCII digits). -/
def pyDigit (c : Char) : Bool := '0' ≤ c && c ≤ '9'

/-- Python `\w` class restricted to ASCII: letters, digits, underscore. -/
def pyWord (c : Char) : Bool := c.isAlpha || pyDigit c || c = '_'

/-- ASCII uppercase letter, the `[A-Z]` class. -/
def pyUpper (c : Char) : Bool := 'A' ≤ c && c ≤ 'Z'

/-- The `[^\s:]` class used by the file captures. -/
def notSpaceColon (c : Char) : Bool := !pySpace c && c ≠ ':'

/-- The `[^\s]` class. -/
def notSpace (c : Char) : Bool := !pySpace c

/-- The `[^\s(]` class used by the TypeScript file capture. -/
def notSpaceParen (c : Char) : Bool := !pySpace c && c ≠ '('

/-- Python `.` in a multi-line scan: any character except a newline. -/
def dotAny (c : Char) : Bool := c ≠ '\n'

/-- The `[-–]` class of the pyright pattern (ASCII hyphen or en dash). -/
def dashClass (c : Char) : Bool := c = '-' || c = '–'

/-- The `[jt]` class of the eslint/typescript/jest patterns. -/
def jtClass (c : Char) : Bool := c = 'j' || c = 't'

/-- Embedded regex syntax.  `cls` matches one character of a class; `star`,
`lazyStar` are greedy / lazy Kleene star over a character class; `alt` tries
its first alternative first; `opt` is a greedy `(?:...)?`; `grp` is a named
capture group; `eol` is `$` (end of the scanned line). -/
inductive RE where
  | cls (p : Char → Bool)
  | star (p : Char → Bool)
  | lazyStar (p : Char → Bool)
  | alt (a b : List RE)
  | opt (a : List RE)
  | grp (tag : String) (a : List RE)
  | eol

/-- Literal string as a regex fragment. -/
def reLit (s : String) : List RE := s.data.map (fun c => RE.cls (fun x => x = c))

/-- Case-insensitive literal (the `re.IGNORECASE` patterns). -/
def reLitCI (s : String) : List RE :=
  s.data.map (fun c => RE.cls (fun x => x.toLower = c.toLower))

/-- `X+` over a character class, encoded as one occurrence followed by `X*`. -/
def rePlus (p : Char → Bool) : List RE := [RE.cls p, RE.star p]

/-- Group environment produced by a match: capture name to captured chars. -/
def GroupEnv := List (String × List Char)

/-- Backtracking matcher in continuation-passing style, anchored at the start
of `cs`.  `fuel` bounds the recursion depth (every recursive call strictly
decreases it); the entry points supply fuel that is ample for the source
patterns, and backtracking branches restart from the fuel of the choice
point, so the bound is linear in the input. -/
def reMatch : Nat → List RE → List Char → GroupEnv →
    (GroupEnv → List Char → Option (GroupEnv × List Char)) →
    Option (GroupEnv × List Char)
  | 0, _, _, _, _ => none
  | Nat.succ fuel, res, cs, gs, k =>
    match res with
    | [] => k gs cs
    | RE.cls p :: rest =>
      match cs with
      | [] => none
      | c :: cs2 => if p c then reMatch fuel rest cs2 gs k else none
    | RE.star p :: rest =>
      match (match cs with
             | c :: cs2 =>
               if p c then reMatch fuel (RE.star p :: rest) cs2 gs k else none
             | [] => none) with
      | some r => some r
      | none => reMatch fuel rest cs gs k
    | RE.lazyStar p :: rest =>
      match reMatch fuel rest cs gs k with
      | some r => some r
      | none =>
        match cs with
        | c :: cs2 =>
          if p c then reMatch fuel (RE.lazyStar p :: rest) cs2 gs k else none
        | [] => none
    | RE.alt a b :: rest =>
      match reMatch fuel (a ++ rest) cs gs k with
      | some r => some r
      | none => reMatch fuel (b ++ rest) cs gs k
    | RE.opt a :: rest =>
      match reMatch fuel (a ++ rest) cs gs k with
      | some r => some r
      | none => reMatch fuel rest cs gs k
    | RE.grp tag a :: rest =>
      reMatch fuel a cs gs (fun gs2 cs2 =>
        reMatch fuel rest cs2 ((tag, cs.take (cs.length - cs2.length)) :: gs2) k)
    | RE.eol :: rest =>
      match cs with
      | [] => reMatch fuel rest cs gs k
      | _ :: _ => none

/-- Result of matching one pattern against one line: the named captures and
the offset (in characters) just past the matched span. -/
structure LineMatch where
  groups : GroupEnv
  stop : Nat

/-- Match a pattern at the start of one line (`^`-anchored attempt). -/
def matchLine (pat : List RE) (line : List Char) : Option LineMatch :=
  match reMatch (4 * line.length + 400) pat line [] (fun gs cs => some (gs, cs)) with
  | none => none
  | some (gs, rest) => some ⟨gs, line.length - rest.length⟩

/-- Split on newline characters, mirroring the line structure that
`re.MULTILINE` anchoring induces (n newlines give n+1 lines). -/
def splitLinesCh : List Char → List (List Char)
  | [] => [[]]
  | c :: cs =>
    if c = '\n' then [] :: splitLinesCh cs
    else
      match splitLinesCh cs with
      | l :: ls => (c :: l) :: ls
      | [] => [[c]]

/-- Pair each line with its character offset in the whole text. -/
def withOffsets : List (List Char) → Nat → List (Nat × List Char)
  | [], _ => []
  | l :: ls, start => (start, l) :: withOffsets ls (start + l.length + 1)

/-- One regex match in the whole text: start offset, end offset, captures. -/
structure ReMatchInfo where
  start : Nat
  stop : Nat
  groups : GroupEnv

/-- All matches of a `^`-anchored multi-line pattern, in text order:
one anchored attempt per line (`re.finditer`). -/
def finditer (pat : List RE) (logs : List Char) : List ReMatchInfo :=
  (withOffsets (splitLinesCh logs) 0).filterMap (fun ol =>
    (matchLine pat ol.2).map (fun m => ⟨ol.1, ol.1 + m.stop, m.groups⟩))

/-- Look up a named capture, as a `String`. -/
def grpVal (gs : GroupEnv) (tag : String) : Option String :=
  (gs.lookup tag).map List.asString

/-- `pyright` pattern:
`^(?P<file>[^\s:]+\.py):(?P<line>\d+):(?P<col>\d+)\s*[-–]\s*error:\s*(?P<msg>.+)$`. -/
def pyrightPat : List RE :=
  [RE.grp "file" (rePlus notSpaceColon ++ reLit ".py"), RE.cls (· = ':'),
   RE.grp "line" (rePlus pyDigit), RE.cls (· = ':'),
   RE.grp "col" (rePlus pyDigit),
   RE.star pySpace, RE.cls dashClass, RE.star pySpace] ++
  reLit "error:" ++
  [RE.star pySpace, RE.grp "msg" (rePlus dotAny), RE.eol]

/-- `mypy` pattern: `^(?P<file>[^\s:]+\.py):(?P<line>\d+):\s*error:\s*(?P<msg>.+)$`. -/
def mypyPat : List RE :=
  [RE.grp "file" (rePlus notSpaceColon ++ reLit ".py"), RE.cls (· = ':'),
   RE.grp "line" (rePlus pyDigit), RE.cls (· = ':'),
   RE.star pySpace] ++
  reLit "error:" ++
  [RE.star pySpace, RE.grp "msg" (rePlus dotAny), RE.eol]

/-- `ruff` pattern:
`^(?P<file>[^\s:]+\.py):(?P<line>\d+):(?P<col>\d+):\s*(?P<code>[A-Z]\d+)\s*(?P<msg>.+)$`. -/
def ruffPat : List RE :=
  [RE.grp "file" (rePlus notSpaceColon ++ reLit ".py"), RE.cls (· = ':'),
   RE.grp "line" (rePlus pyDigit), RE.cls (· = ':'),
   RE.grp "col" (rePlus pyDigit), RE.cls (· = ':'),
   RE.star pySpace,
   RE.grp "code" ([RE.cls pyUpper] ++ rePlus pyDigit),
   RE.star pySpace, RE.grp "msg" (rePlus dotAny), RE.eol]

/-- `eslint` pattern:
`^\s*(?P<file>[^\s:]+\.[jt]sx?):(?P<line>\d+):(?P<col>\d+)\s+(?:error|warning)\s+(?P<msg>.+)$`. -/
def eslintPat : List RE :=
  [RE.star pySpace,
   RE.grp "file" (rePlus notSpaceColon ++
     [RE.cls (· = '.'), RE.cls jtClass, RE.cls (· = 's'), RE.opt [RE.cls (· = 'x')]]),
   RE.cls (· = ':'), RE.grp "line" (rePlus pyDigit),
   RE.cls (· = ':'), RE.grp "col" (rePlus pyDigit)] ++
  rePlus pySpace ++
  [RE.alt (reLit "error") (reLit "warning")] ++
  rePlus pySpace ++
  [RE.grp "msg" (rePlus dotAny), RE.eol]

/-- `typescript` pattern:
`^(?P<file>[^\s(]+\.[jt]sx?)\((?P<line>\d+),(?P<col>\d+)\):\s*error\s+(?P<code>TS\d+):\s*(?P<msg>.+)$`. -/
def typescriptPat : List RE :=
  [RE.grp "file" (rePlus notSpaceParen ++
     [RE.cls (· = '.'), RE.cls jtClass, RE.cls (· = 's'), RE.opt [RE.cls (· = 'x')]]),
   RE.cls (· = '('), RE.grp "line" (rePlus pyDigit),
   RE.cls (· = ','), RE.grp "col" (rePlus pyDigit),
   RE.cls (· = ')'), RE.cls (· = ':'), RE.star pySpace] ++
  reLit "error" ++
  rePlus pySpace ++
  [RE.grp "code" (reLit "TS" ++ rePlus pyDigit),
   RE.cls (· = ':'), RE.star pySpace, RE.grp "msg" (rePlus dotAny), RE.eol]

/-- First `pytest` pattern: `^FAILED\s+(?P<file>[^\s:]+\.py)::(?P<test>\w+)`
(no end anchor: a prefix of the line is matched). -/
def pytestFailedPat : List RE :=
  reLit "FAILED" ++ rePlus pySpace ++
  [RE.grp "file" (rePlus notSpaceColon ++ reLit ".py"),
   RE.cls (· = ':'), RE.cls (· = ':'), RE.grp "test" (rePlus pyWord)]

/-- Second `pytest` pattern:
`^(?P<file>[^\s:]+\.py):(?P<line>\d+):\s*(?:AssertionError|assert\s)`. -/
def pytestAssertPat : List RE :=
  [RE.grp "file" (rePlus notSpaceColon ++ reLit ".py"), RE.cls (· = ':'),
   RE.grp "line" (rePlus pyDigit), RE.cls (· = ':'), RE.star pySpace,
   RE.alt (reLit "AssertionError") (reLit "assert" ++ [RE.cls pySpace])]

/-- `jest` pattern: `^FAIL\s+(?P<file>[^\s]+\.(?:test|spec)\.[jt]sx?)$`. -/
def jestPat : List RE :=
  reLit "FAIL" ++ rePlus pySpace ++
  [RE.grp "file" (rePlus notSpace ++
     [RE.cls (· = '.'), RE.alt (reLit "test") (reLit "spec"),
      RE.cls (· = '.'), RE.cls jtClass, RE.cls (· = 's'), RE.opt [RE.cls (· = 'x')]]),
   RE.eol]

/-- The tool-pattern registry `PATTERNS` of `parser.py`, in its iteration
order. -/
def PATTERNS : List (String × List (List RE)) :=
  [("pyright", [pyrightPat]),
   ("mypy", [mypyPat]),
   ("ruff", [ruffPat]),
   ("eslint", [eslintPat]),
   ("typescript", [typescriptPat]),
   ("pytest", [pytestFailedPat, pytestAssertPat]),
   ("jest", [jestPat])]

/-- One parsed error from the CI logs (`ParsedError` dataclass). -/
structure ParsedError where
  error_type : String
  message : String
  file_path : Option String := none
  line_number : Option Nat := none
  column : Option Nat := none
  context : String := ""
deriving DecidableEq

/-- Collection of parsed errors (`ParsedErrors` dataclass). -/
structure ParsedErrors where
  errors : List ParsedError := []
  raw_logs : String := ""
  error_type : String := "unknown"
deriving DecidableEq

/-- The `affected_files` property: unique non-null file paths. -/
def ParsedErrors.affected_files (pe : ParsedErrors) : List String :=
  (pe.errors.filterMap (·.file_path)).eraseDups

/-- `int()` on a digit capture. -/
def pyInt (s : String) : Nat :=
  s.data.foldl (fun n c => 10 * n + (c.toNat - 48)) 0

/-- Python `str.strip()`, ASCII whitespace. -/
def pyStrip (s : String) : String :=
  (((s.data.dropWhile pySpace).reverse.dropWhile pySpace).reverse).asString

/-- Build a `ParsedError` from a tool-pattern match, as the loop body of
`parse_error_logs` does: message from the `msg` capture falling back to
`code`, numeric fields when present, context of 200 characters around the
match span clipped to the text bounds. -/
def mkToolError (name : String) (logs : List Char) (m : ReMatchInfo) : ParsedError :=
  let msg0 := (grpVal m.groups "msg").getD ""
  let lo := m.start - 200
  let hi := min logs.length (m.stop + 200)
  { error_type := name
    message := if msg0 ≠ "" then msg0 else (grpVal m.groups "code").getD ""
    file_path := grpVal m.groups "file"
    line_number := (grpVal m.groups "line").map pyInt
    column := (grpVal m.groups "col").map pyInt
    context := ((logs.drop lo).take (hi - lo)).asString }

/-- The nested loop of `parse_error_logs` over the pattern registry: the
accumulator carries the error list and `detected_type` (each match appends
one error and sets `detected_type` to the tool name). -/
def runPatterns (logs : List Char) : List ParsedError × String :=
  PATTERNS.foldl (fun acc entry =>
    entry.2.foldl (fun acc2 pat =>
      let ms := finditer pat logs
      (acc2.1 ++ ms.map (mkToolError entry.1 logs),
       if ms.isEmpty then acc2.2 else entry.1)) acc) ([], "unknown")

/-- The generic fallback indicator patterns of `_extract_generic_errors`:
`^error\[.*?\]:\s*(.+)$` (ignorecase), `^Error:\s*(.+)$`,
`^fatal:\s*(.+)$` (ignorecase), `^(?:npm |yarn )?ERR!\s*(.+)$`.
The single positional capture is named `g`. -/
def error_indicators : List (List RE) :=
  [reLitCI "error" ++
     [RE.cls (· = '['), RE.lazyStar dotAny, RE.cls (· = ']'), RE.cls (· = ':'),
      RE.star pySpace, RE.grp "g" (rePlus dotAny), RE.eol],
   reLit "Error:" ++ [RE.star pySpace, RE.grp "g" (rePlus dotAny), RE.eol],
   reLitCI "fatal:" ++ [RE.star pySpace, RE.grp "g" (rePlus dotAny), RE.eol],
   [RE.opt [RE.alt (reLit "npm ") (reLit "yarn ")]] ++ reLit "ERR!" ++
     [RE.star pySpace, RE.grp "g" (rePlus dotAny), RE.eol]]

/-- `_extract_generic_errors`: for each indicator pattern in order, append a
`generic` error per match (stripped capture), then keep the first 10. -/
def _extract_generic_errors (logs : List Char) : List ParsedError :=
  (error_indicators.foldl (fun acc pat =>
    acc ++ (finditer pat logs).map (fun m =>
      { error_type := "generic"
        message := pyStrip ((grpVal m.groups "g").getD "") })) []).take 10

/-- `parse_error_logs`: run the tool registry; if it found nothing fall back
to the generic pass; the overall `error_type` is `detected_type` when the
error list is non-empty and `"unknown"` otherwise. -/
def parse_error_logs (logs : String) : ParsedErrors :=
  let r := runPatterns logs.data
  let errors := if r.1.isEmpty then _extract_generic_errors logs.data else r.1
  { errors := errors
    raw_logs := logs
    error_type := if errors.isEmpty then "unknown" else r.2 }

/-- Did any pattern of this registry entry match the text? -/
def entryHit (logs : List Char) (entry : String × List (List RE)) : Bool :=
  entry.2.any (fun pat => !(finditer pat logs).isEmpty)

/-- All errors contributed by one registry entry, in discovery order. -/
def entryErrs (logs : List Char) (entry : String × List (List RE)) : List ParsedError :=
  (entry.2.map (fun pat => (finditer pat logs).map (mkToolError entry.1 logs))).flatten

/-- Did any tool-specific pattern match the text at all? -/
def hasToolMatch (logs : List Char) : Bool :=
  PATTERNS.any (entryHit logs)

/-- Names of the registry entries with at least one match, in registry
iteration order. -/
def matchedToolNames (logs : List Char) : List String :=
  (PATTERNS.filter (entryHit logs)).map (·.1)

/-- A single file change to apply (`FileChange` dataclass). -/
structure FileChange where
  file_path : String
  original_content : String
  new_content : String
deriving DecidableEq

/-- Result of the oracle's analysis (`FixResult` dataclass).  The float
`confidence` is modelled as a rational. -/
structure FixResult where
  can_fix : Bool
  description : String
  changes : List FileChange := []
  confidence : ℚ := 0
  analysis : String := ""
deriving DecidableEq

/-- One entry of the `"changes"` array of the decoded JSON reply; a `none`
field models an absent key (`dict.get` default). -/
structure ChangeData where
  file_path : Option String := none
  new_content : Option String := none
deriving DecidableEq

/-- The decoded JSON object of the oracle reply; `none` models an absent
key. -/
structure ClaudeReplyData where
  can_fix : Option Bool := none
  confidence : Option ℚ := none
  analysis : Option String := none
  description : Option String := none
  changes : Option (List ChangeData) := none
deriving DecidableEq

/-- A decoder `String → Except String ClaudeReplyData` models the external
`json.loads` (restricted to object-shaped replies); `.error e` models a
`json.JSONDecodeError` with message `e`. -/
def JsonLoads := String → Except String ClaudeReplyData

/-- First index at which `needle` occurs in the haystack at or after the
scan head, counting from `i` (Python `str.find`, `none` for `-1`). -/
def findSubAux (needle : List Char) : List Char → Nat → Option Nat
  | hay, i =>
    if needle.isPrefixOf hay then some i
    else
      match hay with
      | [] => none
      | _ :: rest => findSubAux needle rest (i + 1)

/-- Python `sub in t`. -/
def pyContains (t sub : String) : Bool := (findSubAux sub.data t.data 0).isSome

/-- Python `t.find(sub, start)` (as an option). -/
def pyFindFrom (t sub : String) (start : Nat) : Option Nat :=
  (findSubAux sub.data (t.data.drop start) 0).map (· + start)

/-- Python slice `t[a:b]` on characters. -/
def pySlice (t : List Char) (a b : Nat) : List Char := (t.drop a).take (b - a)

/-- Branch (a) of `_parse_claude_response`: the text after a ` ```json `
marker up to the next fence, stripped; no result when the closing fence is
missing (`end > start` fails). -/
def jsonFenceExtract (t : String) : Option String :=
  match findSubAux "```json".data t.data 0 with
  | none => none
  | some i =>
    let s := i + 7
    match pyFindFrom t "```" s with
    | none => none
    | some e => if s < e then some (pyStrip (pySlice t.data s e).asString) else none

/-- Branch (b) of `_parse_claude_response`: the inside of any fenced block,
stripped. -/
def anyFenceExtract (t : String) : Option String :=
  match findSubAux "```".data t.data 0 with
  | none => none
  | some i =>
    let s := i + 3
    match pyFindFrom t "```" s with
    | none => none
    | some e => if s < e then some (pyStrip (pySlice t.data s e).asString) else none

/-- Branch (c) of `_parse_claude_response`: the slice from the first opening
brace to the last closing brace (`str.index` / `str.rindex`; a `ValueError`
from either is swallowed, giving no result). -/
def braceExtract (t : String) : Option String :=
  match findSubAux [Char.ofNat 123] t.data 0, findSubAux [Char.ofNat 125] t.data.reverse 0 with
  | some i, some jr => some (pySlice t.data i (t.data.length - jr)).asString
  | _, _ => none

/-- The extraction of `_parse_claude_response`: the branch is selected by
marker containment (`if "```json" in text / elif "```" in text / else`). -/
def extractJsonBlock (t : String) : Option String :=
  if pyContains t "```json" then jsonFenceExtract t
  else if pyContains t "```" then anyFenceExtract t
  else braceExtract t

/-- The `FixResult` returned when no JSON could be extracted. -/
def failedParseFixResult : FixResult :=
  { can_fix := false, description := "", analysis := "Failed to parse Claude response" }

/-- The `FixResult` returned when `json.loads` fails with message `e`. -/
def jsonErrorFixResult (e : String) : FixResult :=
  { can_fix := false, description := "", analysis := "JSON parse error: " ++ e }

/-- The tail of `_parse_claude_response`: build the `FileChange` list (keep
entries whose path and new content are both non-empty, attaching the original
content from the resolved source map with `""` default) and populate the
remaining fields with `dict.get` defaults. -/
def buildFixResult (data : ClaudeReplyData) (source_files : List (String × String)) :
    FixResult :=
  let changes := (data.changes.getD []).foldl (fun acc cd =>
    let fp := cd.file_path.getD ""
    let nc := cd.new_content.getD ""
    if fp ≠ "" ∧ nc ≠ "" then
      acc ++ [{ file_path := fp
                original_content := (source_files.lookup fp).getD ""
                new_content := nc }]
    else acc) []
  { can_fix := data.can_fix.getD false
    description := data.description.getD ""
    changes := changes
    confidence := data.confidence.getD 0
    analysis := data.analysis.getD "" }

/-- `_parse_claude_response`: extract a JSON candidate (a falsy result — `None`
or the empty string — gives the parse-failure result), decode it with the
supplied `json.loads`, and build the `FixResult`. -/
def _parse_claude_response (jl : JsonLoads) (response_text : String)
    (source_files : List (String × String)) : FixResult :=
  match extractJsonBlock response_text with
  | none => failedParseFixResult
  | some jm =>
    if jm = "" then failedParseFixResult
    else
      match jl jm with
      | .error e => jsonErrorFixResult e
      | .ok data => buildFixResult data source_files

/-- A content block of the service reply: either a text block or a block
without a `text` attribute. -/
inductive ContentBlock where
  | text (s : String)
  | other
deriving DecidableEq

/-- Outcome of the single `client.messages.create` call: a reply with its
content blocks, or a raised `anthropic.APIError` with message `e`. -/
inductive ApiOutcome where
  | ok (content : List ContentBlock)
  | apiError (e : String)

/-- A Python exception escaping `analyze_failure`. -/
inductive PyExn where
  | indexError
  | valueError (msg : String)
deriving DecidableEq

/-- `analyze_failure` from the service invocation on: the `try` block reads
`response.content[0]` (an empty list raises `IndexError`), requires a `text`
attribute (else `raise ValueError(...)`), and decodes the text; only
`anthropic.APIError` is caught and converted into a negative `FixResult`.
The preceding steps (settings, source-file resolution, prompt construction)
only shape the request, so they appear as the `source_files` parameter. -/
def analyze_failure (jl : JsonLoads) (source_files : List (String × String))
    (outcome : ApiOutcome) : Except PyExn FixResult :=
  match outcome with
  | .apiError e =>
    .ok { can_fix := false, description := "", analysis := "API error: " ++ e }
  | .ok content =>
    match content with
    | [] => .error .indexError
    | blk :: _ =>
      match blk with
      | .other => .error (.valueError "Unexpected response format from Claude API")
      | .text t => .ok (_parse_claude_response jl t source_files)

/-- Refinement comparison for the extraction, following the spec's words:
"extraction tries, in order: (a) a block explicitly tagged as structured
data, (b) any fenced block, (c) the widest substring bounded by the first
opening and the last closing brace" — an ordered chain in which a later
strategy is attempted whenever every earlier one yielded no result. -/
def specExtractChain (t : String) : Option String :=
  (jsonFenceExtract t).orElse (fun _ => (anyFenceExtract t).orElse (fun _ => braceExtract t))

/-- `_CACHE_TTL_SECONDS = 3600`.  Timestamps (`time.time()` floats) are
modelled as rationals. -/
def _CACHE_TTL_SECONDS : ℚ := 3600

/-- The deduplication cache `_processed_runs` (run id to timestamp); the
Python dict is modelled as an association list with unique keys. -/
abbrev DedupCache := List (Nat × ℚ)

/-- `_cleanup_cache`: drop every entry whose age strictly exceeds the TTL. -/
def _cleanup_cache (now : ℚ) (c : DedupCache) : DedupCache :=
  c.filter (fun kv => ¬(now - kv.2 > _CACHE_TTL_SECONDS))

/-- The dedup check-and-record sequence of `github_webhook`: first
`_cleanup_cache()`, then `if run_id in _processed_runs: ... duplicate`,
else `_processed_runs[run_id] = time.time()`.  Returns the duplicate flag
and the updated cache. -/
def seen_or_record (run_id : Nat) (now : ℚ) (c : DedupCache) : Bool × DedupCache :=
  let c2 := _cleanup_cache now c
  if (c2.lookup run_id).isSome then (true, c2)
  else (false, (run_id, now) :: c2)

/-- External calls performed by `process_workflow_failure`, in invocation
order. -/
inductive PEvent where
  | notifyFailure
  | fetchLogs
  | cloneRepo
  | analyzeCall
  | applyFix
  | createPr
  | notifyPr
  | removeWorkdir
deriving DecidableEq

/-- Terminal outcome of one work item. -/
inductive POutcome where
  | noErrors
  | notFixable
  | published
  | failed
deriving DecidableEq

/-- Environment of one `process_workflow_failure` run: the result of each
external collaborator call (`Except.error` models a raised exception). -/
structure PEnv where
  notifyFailureRes : Except String Unit
  fetchLogsRes : Except String String
  cloneRes : Except String Unit
  jsonLoads : JsonLoads
  source_files : List (String × String)
  apiOutcome : ApiOutcome
  applyRes : Except String Unit
  createPrRes : Except String String
  notifyPrRes : Except String Unit

/-- `process_workflow_failure`: notify about the failure, fetch and parse the
logs (stop when no errors parse), clone, consult the oracle via
`analyze_failure` (stop at `NOT_FIXABLE` when `can_fix` is false), apply the
fix, create the PR, notify about it.  The working copy is removed in a
`finally` on every path after the clone, and the outer `except Exception`
turns any raised stage error into a logged terminal failure.  The returned
trace lists the external calls made, in order. -/
def process_workflow_failure (env : PEnv) : List PEvent × POutcome :=
  match env.notifyFailureRes with
  | .error _ => ([.notifyFailure], .failed)
  | .ok _ =>
    match env.fetchLogsRes with
    | .error _ => ([.notifyFailure, .fetchLogs], .failed)
    | .ok logs =>
      if (parse_error_logs logs).errors.isEmpty then
        ([.notifyFailure, .fetchLogs], .noErrors)
      else
        match env.cloneRes with
        | .error _ => ([.notifyFailure, .fetchLogs, .cloneRepo], .failed)
        | .ok _ =>
          let pre : List PEvent := [.notifyFailure, .fetchLogs, .cloneRepo, .analyzeCall]
          match analyze_failure env.jsonLoads env.source_files env.apiOutcome with
          | .error _ => (pre ++ [.removeWorkdir], .failed)
          | .ok fix_result =>
            if !fix_result.can_fix then (pre ++ [.removeWorkdir], .notFixable)
            else
              match env.applyRes with
              | .error _ => (pre ++ [.applyFix, .removeWorkdir], .failed)
              | .ok _ =>
                match env.createPrRes with
                | .error _ => (pre ++ [.applyFix, .createPr, .removeWorkdir], .failed)
                | .ok _ =>
                  match env.notifyPrRes with
                  | .error _ =>
                    (pre ++ [.applyFix, .createPr, .notifyPr, .removeWorkdir], .failed)
                  | .ok _ =>
                    (pre ++ [.applyFix, .createPr, .notifyPr, .removeWorkdir], .published)

/-- Python `str.startswith`. -/
def pyStartsWith (s p : String) : Bool := p.data.isPrefixOf s.data

/-- `validate_github_signature` from `validator.py`.  The HMAC-SHA256 hex
digest of `hashlib`/`hmac` is an external library call, taken as the
parameter `hmacHex` (secret bytes, payload bytes to lowercase hex string);
`hmac.compare_digest` is equality.  `payload` is the raw body bytes and
`secret` the already-UTF-8-encoded secret. -/
def validate_github_signature (hmacHex : List Nat → List Nat → String)
    (payload : List Nat) (signature : Option String) (secret : List Nat) : Bool :=
  match signature with
  | none => false
  | some sig =>
    if sig = "" then false
    else if !pyStartsWith sig "sha256=" then false
    else
      let expected_signature := "sha256=" ++ hmacHex secret payload
      expected_signature == sig

/-- Insert into a list of (position, message) pairs sorted by position. -/
def insertByStart (x : Nat × String) : List (Nat × String) → List (Nat × String)
  | [] => [x]
  | y :: ys => if x.1 ≤ y.1 then x :: y :: ys else y :: insertByStart x ys

/-- Sort (position, message) pairs by text position. -/
def sortByStart : List (Nat × String) → List (Nat × String)
  | [] => []
  | x :: xs => insertByStart x (sortByStart xs)

/-- Refinement comparison for the generic fallback, following the spec's
words: "the first 10 matches across all generic patterns combined, in text
order" — all indicator matches ordered by their position in the input text,
capped at 10. -/
def specGenericTextOrder (logs : List Char) : List ParsedError :=
  let ms := (error_indicators.map (fun pat =>
    (finditer pat logs).map (fun m =>
      (m.start, pyStrip ((grpVal m.groups "g").getD ""))))).flatten
  ((sortByStart ms).take 10).map (fun sm =>
    { error_type := "generic", message := sm.2 })

/-- A decoder that rejects everything (models `json.loads` raising on any
candidate). -/
def alwaysErrLoads : JsonLoads := fun _ => .error "boom"

/-- A decoder that accepts everything as the empty JSON object (models
`json.loads` on an object with no keys). -/
def emptyObjLoads : JsonLoads := fun _ => .ok {}

/-- The reply used against C2: it contains a trailing ` ```json ` marker with
no closing fence, and a JSON object earlier in the body. -/
def c2Reply : String := "\x7b\"can_fix\": true\x7d ```json"

/-- Decoded form of the JSON object inside `c2Reply`. -/
def c2Json : ClaudeReplyData := { can_fix := some true }

/-- A decoder consistent with `json.loads` on the strings relevant to
`c2Reply`: it accepts exactly the brace-bounded object of that reply. -/
def c2Loads : JsonLoads := fun s =>
  if s = "\x7b\"can_fix\": true\x7d" then .ok c2Json else .error "invalid"

/-- Decoded reply with one change lacking new content and one fully
populated change. -/
def c7Data : ClaudeReplyData :=
  { changes := some
      [{ file_path := some "b.py", new_content := some "" },
       { file_path := some "a.py", new_content := some "new" }] }

/-- Fifteen generic-indicator lines, none matching a tool pattern. -/
def genericLogs15 : String :=
  "Error: a1\nError: a2\nError: a3\nError: a4\nError: a5\nError: a6\nError: a7\nError: a8\nError: a9\nError: a10\nfatal: a11\nfatal: a12\nERR! a13\nnpm ERR! a14\nyarn ERR! a15"

/-- Concrete environment: the oracle call raises an API error, which
`analyze_failure` converts into a non-fixable result. -/
def c8Env : PEnv :=
  { notifyFailureRes := .ok ()
    fetchLogsRes := .ok "Error: boom"
    cloneRes := .ok ()
    jsonLoads := alwaysErrLoads
    source_files := []
    apiOutcome := .apiError "down"
    applyRes := .ok ()
    createPrRes := .ok "url"
    notifyPrRes := .ok () }

/-- Folding an append-accumulating loop is the flattened map. -/
theorem foldl_acc_append {α β : Type} (f : α → List β) (l : List α) (acc : List β) :
    l.foldl (fun a x => a ++ f x) acc = acc ++ (l.map f).flatten := by
  induction l generalizing acc with
  | nil => simp
  | cons x xs ih => simp [ih, List.append_assoc]

/-- Folding a conditional-append loop is the filtered map. -/
theorem foldl_filter_append {α β : Type} (p : α → Prop) [DecidablePred p] (f : α → β)
    (l : List α) (acc : List β) :
    l.foldl (fun a x => if p x then a ++ [f x] else a) acc
      = acc ++ (l.filter (fun x => decide (p x))).map f := by
  induction l generalizing acc with
  | nil => simp
  | cons x xs ih =>
    by_cases h : p x <;> simp [h, ih, List.append_assoc]

/-- The last element of a cons. -/
theorem getLast?_cons_getD {α : Type} (e : α) (l : List α) :
    (e :: l).getLast? = some (l.getLast?.getD e) := by
  induction l generalizing e with
  | nil => rfl
  | cons b bs ih => rw [List.getLast?_cons_cons, ih b]; simp [ih b]

/-- The inner loop of `runPatterns` over one registry entry's patterns. -/
theorem runPatterns_inner (logs : List Char) (name : String) (pats : List (List RE))
    (acc : List ParsedError × String) :
    pats.foldl (fun acc2 pat =>
      let ms := finditer pat logs
      (acc2.1 ++ ms.map (mkToolError name logs),
       if ms.isEmpty then acc2.2 else name)) acc
    = (acc.1 ++ (pats.map (fun pat => (finditer pat logs).map (mkToolError name logs))).flatten,
       if pats.any (fun pat => !(finditer pat logs).isEmpty) then name else acc.2) := by
  induction pats generalizing acc with
  | nil => simp
  | cons p ps ih =>
    simp only [List.foldl_cons]
    rw [ih]
    cases hfe : finditer p logs with
    | nil =>
      simp only [List.map_cons, List.flatten_cons, List.any_cons, hfe, List.isEmpty_nil,
        Bool.not_true, Bool.false_or, List.map_nil, List.append_nil, if_true]
      simp [List.append_assoc]
    | cons m ms =>
      simp only [List.map_cons, List.flatten_cons, List.any_cons, hfe, List.isEmpty_cons,
        Bool.not_false, Bool.true_or, if_true]
      simp [List.append_assoc]

/-- The outer loop of `runPatterns` over a registry fragment. -/
theorem runPatterns_outer (logs : List Char) (entries : List (String × List (List RE)))
    (acc : List ParsedError × String) :
    entries.foldl (fun a entry =>
      entry.2.foldl (fun acc2 pat =>
        let ms := finditer pat logs
        (acc2.1 ++ ms.map (mkToolError entry.1 logs),
         if ms.isEmpty then acc2.2 else entry.1)) a) acc
    = (acc.1 ++ (entries.map (entryErrs logs)).flatten,
       ((entries.filter (entryHit logs)).getLast?).elim acc.2 (·.1)) := by
  induction entries generalizing acc with
  | nil => simp
  | cons e es ih =>
    simp only [List.foldl_cons]
    rw [ih, runPatterns_inner]
    simp only [entryErrs, entryHit, List.map_cons, List.flatten_cons, List.filter_cons]
    by_cases h : (e.2.any fun pat => !(finditer pat logs).isEmpty) = true
    · simp only [if_pos h, List.append_assoc, getLast?_cons_getD]
      cases hl : (es.filter (entryHit logs)).getLast? with
      | none => simp [entryHit] at hl; simp [hl]
      | some v => simp [entryHit] at hl; simp [hl]
    · simp only [if_neg h, List.append_assoc]
/-- `runPatterns` computed: the errors are the flattened per-entry errors and
`detected_type` is the name of the last registry entry that matched. -/
theorem runPatterns_eq (logs : List Char) :
    runPatterns logs = ((PATTERNS.map (entryErrs logs)).flatten,
      ((PATTERNS.filter (entryHit logs)).getLast?).elim "unknown" (·.1)) := by
  have h := runPatterns_outer logs PATTERNS ([], "unknown")
  simpa [runPatterns] using h

/-- An entry contributes no errors exactly when none of its patterns match. -/
theorem entryErrs_eq_nil_iff (logs : List Char) (e : String × List (List RE)) :
    entryErrs logs e = [] ↔ entryHit logs e = false := by
  simp [entryErrs, entryHit]

/-- The tool pass finds no errors exactly when no tool pattern matches. -/
theorem toolErrs_nil_iff (logs : List Char) :
    (PATTERNS.map (entryErrs logs)).flatten = [] ↔ hasToolMatch logs = false := by
  simp only [List.flatten_eq_nil_iff, hasToolMatch, List.any_eq_false]
  constructor
  · intro h e he
    have := h (entryErrs logs e) (List.mem_map_of_mem _ he)
    rw [entryErrs_eq_nil_iff] at this
    simp [this]
  · intro h l hl
    obtain ⟨e, he, rfl⟩ := List.mem_map.mp hl
    rw [entryErrs_eq_nil_iff]
    have := h e he
    revert this
    cases entryHit logs e <;> simp

/-- The registry names, literally. -/
theorem patterns_names : PATTERNS.map Prod.fst
    = ["pyright", "mypy", "ruff", "eslint", "typescript", "pytest", "jest"] := rfl

/-- When some tool pattern matched, `detected_type` is the name of the last
matching registry entry, which is never `"unknown"`. -/
theorem detected_of_hit (logs : List Char) (h : hasToolMatch logs = true) :
    ∃ e, (PATTERNS.filter (entryHit logs)).getLast? = some e ∧ e ∈ PATTERNS ∧
      e.1 ≠ "unknown" := by
  have hne : PATTERNS.filter (entryHit logs) ≠ [] := by
    simp only [hasToolMatch, List.any_eq_true] at h
    obtain ⟨e, he, hhit⟩ := h
    intro hnil
    rw [List.filter_eq_nil_iff] at hnil
    exact hnil e he hhit
  obtain ⟨e, he⟩ := Option.isSome_iff_exists.mp (List.getLast?_isSome.mpr hne)
  refine ⟨e, he, ?_, ?_⟩
  · exact (List.mem_filter.mp (List.mem_of_getLast?_eq_some he)).1
  · have hm : e.1 ∈ PATTERNS.map Prod.fst :=
      List.mem_map_of_mem _ (List.mem_filter.mp (List.mem_of_getLast?_eq_some he)).1
    rw [patterns_names] at hm
    have hall : ∀ s ∈ (["pyright", "mypy", "ruff", "eslint", "typescript", "pytest",
        "jest"] : List String), s ≠ "unknown" := by decide
    exact hall _ hm
/-- C1 (amended): the overall `error_type` is `"unknown"` precisely when no
tool-specific pattern matched; errors produced only by the generic fallback
leave it `"unknown"`. -/
theorem parse_error_type_unknown_iff (logs : String) :
    (parse_error_logs logs).error_type = "unknown" ↔ hasToolMatch logs.data = false := by
  simp only [parse_error_logs, runPatterns_eq]
  cases h : hasToolMatch logs.data with
  | false =>
    have h1 : (PATTERNS.map (entryErrs logs.data)).flatten = [] := (toolErrs_nil_iff _).mpr h
    have h2 : PATTERNS.filter (entryHit logs.data) = [] := by
      rw [List.filter_eq_nil_iff]
      intro e he hbad
      simp only [hasToolMatch, List.any_eq_false] at h
      exact h e he hbad
    simp [h1, h2]
  | true =>
    obtain ⟨e, he, hmem, hname⟩ := detected_of_hit logs.data h
    have h1 : (PATTERNS.map (entryErrs logs.data)).flatten ≠ [] := by
      rw [ne_eq, toolErrs_nil_iff, h]
      simp
    have h2 : ((PATTERNS.map (entryErrs logs.data)).flatten).isEmpty = false := by
      cases hx : (PATTERNS.map (entryErrs logs.data)).flatten
      · exact absurd hx h1
      · rfl
    simp [h2, he, hname]

/-- C5: when tool patterns matched, the overall `error_type` is the name of
the matching registry entry that appears last in registry iteration order. -/
theorem parse_error_type_last_registry_match (logs : String) (t1 t2 : String)
    (h1 : t1 ∈ matchedToolNames logs.data) (h2 : t2 ∈ matchedToolNames logs.data)
    (hne : t1 ≠ t2) :
    (parse_error_logs logs).error_type
      = (matchedToolNames logs.data).getLast?.getD "unknown" := by
  have hhit : hasToolMatch logs.data = true := by
    simp only [matchedToolNames] at h1
    obtain ⟨e, hef, rfl⟩ := List.mem_map.mp h1
    have hm := List.mem_filter.mp hef
    simp only [hasToolMatch, List.any_eq_true]
    exact ⟨e, hm.1, hm.2⟩
  obtain ⟨e, he, hmem, hname⟩ := detected_of_hit logs.data hhit
  have hn1 : (PATTERNS.map (entryErrs logs.data)).flatten ≠ [] := by
    rw [ne_eq, toolErrs_nil_iff, hhit]
    simp
  have hn2 : ((PATTERNS.map (entryErrs logs.data)).flatten).isEmpty = false := by
    cases hx : (PATTERNS.map (entryErrs logs.data)).flatten
    · exact absurd hx hn1
    · rfl
  simp only [parse_error_logs, runPatterns_eq]
  simp [hn2, he, matchedToolNames, List.getLast?_map]
/-- C1 counterexample: a log matching only a generic indicator yields a
non-empty error list while the overall `error_type` stays `"unknown"`,
refuting the claimed equivalence. -/
theorem parse_unknown_with_generic_errors :
    (parse_error_logs "Error: boom").error_type = "unknown"
    ∧ (parse_error_logs "Error: boom").errors ≠ [] := by
  exact ⟨by decide, by decide⟩

/-- C5 witness: logs matching pyright (first line) and mypy (second line)
are classified as `"mypy"`, the later registry entry. -/
theorem parse_error_type_last_registry_match_witness :
    (parse_error_logs "a.py:1:2 - error: x\nb.py:3: error: y").error_type = "mypy" := by
  have h := parse_error_type_last_registry_match "a.py:1:2 - error: x\nb.py:3: error: y"
    "pyright" "mypy" (by decide) (by decide) (by decide)
  rw [h]
  decide

/-- C4 (amended): the generic fallback result is the first 10 of the matches
grouped by indicator pattern (pattern order first, text order within a
pattern); its length never exceeds 10, and 15 generic-indicator lines yield
exactly 10 generic errors. -/
theorem extract_generic_errors_grouped (logs : List Char) :
    _extract_generic_errors logs
      = ((error_indicators.map (fun pat => (finditer pat logs).map (fun m =>
          ({ error_type := "generic",
             message := pyStrip ((grpVal m.groups "g").getD "") } : ParsedError)))).flatten).take 10
    ∧ (_extract_generic_errors logs).length ≤ 10
    ∧ (parse_error_logs genericLogs15).errors.length = 10
    ∧ (parse_error_logs genericLogs15).errors.all (fun e => e.error_type = "generic") = true := by
  refine ⟨?_, ?_, by decide, by decide⟩
  · simp only [_extract_generic_errors]
    rw [foldl_acc_append]
    simp
  · simp only [_extract_generic_errors]
    rw [foldl_acc_append]
    simp [List.length_take]

/-- C4 counterexample: on `"fatal: a\nError: b"` the code emits the
`Error:`-pattern match before the `fatal:` match although the latter comes
first in the text, diverging from the spec's text-order reading. -/
theorem extract_generic_errors_not_text_order :
    (_extract_generic_errors "fatal: a\nError: b".data).map (·.message) = ["b", "a"]
    ∧ (specGenericTextOrder "fatal: a\nError: b".data).map (·.message) = ["a", "b"]
    ∧ _extract_generic_errors "fatal: a\nError: b".data
        ≠ specGenericTextOrder "fatal: a\nError: b".data := by
  exact ⟨by decide, by decide, by decide⟩

/-- C2 counterexample: on `c2Reply` the tagged-fence strategy and the
any-fence strategy yield no result while the spec's fallthrough chain reaches
the brace strategy and obtains parseable JSON with `can_fix = true`; the code
nevertheless returns the parse-failure result with `can_fix = false`, because
it dispatches on the presence of the ` ```json ` marker alone and attempts no
later strategy. -/
theorem parse_claude_response_no_fallthrough :
    jsonFenceExtract c2Reply = none
    ∧ anyFenceExtract c2Reply = none
    ∧ specExtractChain c2Reply = some "\x7b\"can_fix\": true\x7d"
    ∧ c2Loads "\x7b\"can_fix\": true\x7d" = .ok c2Json
    ∧ c2Json.can_fix = some true
    ∧ _parse_claude_response c2Loads c2Reply [] = failedParseFixResult
    ∧ (_parse_claude_response c2Loads c2Reply []).can_fix = false := by
  refine ⟨by decide, by decide, by decide, by rfl, by rfl, by decide, by decide⟩

/-- C2 (amended): the extraction strategy is selected by marker containment
alone; when the ` ```json ` marker is present but yields no block the
parse-failure result is returned without attempting later strategies, when
the selected candidate fails to decode the JSON-error result is returned, and
both failure results have `can_fix = false` with a non-empty analysis (no
exception is raised). -/
theorem parse_claude_response_marker_dispatch (jl : JsonLoads) (t : String)
    (sf : List (String × String)) :
    (pyContains t "```json" = true → jsonFenceExtract t = none →
      _parse_claude_response jl t sf = failedParseFixResult)
    ∧ (∀ jm e, extractJsonBlock t = some jm → jm ≠ "" → jl jm = .error e →
      _parse_claude_response jl t sf = jsonErrorFixResult e)
    ∧ failedParseFixResult.can_fix = false
    ∧ failedParseFixResult.analysis ≠ ""
    ∧ (∀ e, (jsonErrorFixResult e).can_fix = false ∧ (jsonErrorFixResult e).analysis ≠ "") := by
  refine ⟨?_, ?_, rfl, by decide, ?_⟩
  · intro h1 h2
    simp [_parse_claude_response, extractJsonBlock, h1, h2]
  · intro jm e hx hne hl
    simp [_parse_claude_response, hx, hne, hl]
  · intro e
    refine ⟨rfl, ?_⟩
    intro h
    have := congrArg String.length h
    simp [jsonErrorFixResult, String.length_append] at this
    exact absurd this.1 (by decide)
/-- C2 witness: the amended dispatch behavior at concrete inputs — a reply
whose ` ```json ` marker has no closing fence gives the parse-failure result,
and a brace-only reply whose candidate fails decoding gives the JSON-error
result. -/
theorem parse_claude_response_marker_dispatch_witness :
    _parse_claude_response c2Loads c2Reply [] = failedParseFixResult
    ∧ _parse_claude_response alwaysErrLoads "\x7b bad \x7d" [] = jsonErrorFixResult "boom" := by
  constructor
  · exact (parse_claude_response_marker_dispatch c2Loads c2Reply []).1 (by decide) (by decide)
  · exact (parse_claude_response_marker_dispatch alwaysErrLoads "\x7b bad \x7d" []).2.1
      "\x7b bad \x7d" "boom" (by decide) (by decide) (by rfl)

/-- C3 counterexample: a reply whose first content block has no text
attribute makes `analyze_failure` raise (`ValueError` escapes, since only
`anthropic.APIError` is caught); an empty content list raises `IndexError`. -/
theorem analyze_failure_raises_on_shape :
    analyze_failure alwaysErrLoads [] (.ok [ContentBlock.other])
      = .error (.valueError "Unexpected response format from Claude API")
    ∧ analyze_failure alwaysErrLoads [] (.ok []) = .error .indexError := by
  exact ⟨rfl, rfl⟩

/-- C3 (amended): a service API error is converted into a `FixResult` with
`can_fix = false` and a non-empty analysis carrying the error detail, and a
text reply is decoded without raising; but a structurally unexpected reply
(no content blocks, or a first block without text) raises and the exception
propagates to the caller. -/
theorem analyze_failure_amended (jl : JsonLoads) (sf : List (String × String)) :
    (∀ msg, analyze_failure jl sf (.apiError msg)
        = .ok { can_fix := false, description := "", analysis := "API error: " ++ msg }
      ∧ ("API error: " ++ msg) ≠ "")
    ∧ analyze_failure jl sf (.ok []) = .error .indexError
    ∧ (∀ rest, analyze_failure jl sf (.ok (ContentBlock.other :: rest))
        = .error (.valueError "Unexpected response format from Claude API"))
    ∧ (∀ t rest, analyze_failure jl sf (.ok (ContentBlock.text t :: rest))
        = .ok (_parse_claude_response jl t sf)) := by
  refine ⟨fun msg => ⟨rfl, ?_⟩, rfl, fun rest => rfl, fun t rest => rfl⟩
  intro h
  have := congrArg String.length h
  simp [String.length_append] at this
  exact absurd this.1 (by decide)

/-- C7: the changes of the built `FixResult` are exactly the decoded entries
with non-empty path and non-empty new content, with `original_content` looked
up in the resolved source map (empty when absent); in particular one
empty-content change and one populated change yield exactly one
`FileChange`. -/
theorem buildFixResult_changes_spec (d : ClaudeReplyData) (sf : List (String × String)) :
    (buildFixResult d sf).changes
      = ((d.changes.getD []).filter (fun cd =>
          decide (cd.file_path.getD "" ≠ "" ∧ cd.new_content.getD "" ≠ ""))).map
          (fun cd =>
            { file_path := cd.file_path.getD ""
              original_content := (sf.lookup (cd.file_path.getD "")).getD ""
              new_content := cd.new_content.getD "" })
    ∧ (buildFixResult c7Data [("a.py", "orig")]).changes
        = [{ file_path := "a.py", original_content := "orig", new_content := "new" }] := by
  constructor
  · simp only [buildFixResult]
    rw [foldl_filter_append]
    simp
  · decide

/-- C9: a decoded reply object lacking the `can_fix` key yields a `FixResult`
whose `can_fix` is false (the gate fails closed). -/
theorem parse_claude_response_missing_can_fix (jl : JsonLoads) (t : String)
    (sf : List (String × String)) (jm : String) (d : ClaudeReplyData)
    (hx : extractJsonBlock t = some jm) (hne : jm ≠ "") (hl : jl jm = .ok d)
    (hcf : d.can_fix = none) :
    (_parse_claude_response jl t sf).can_fix = false := by
  simp [_parse_claude_response, hx, hne, hl, buildFixResult, hcf]

/-- C9 witness: decoding the reply `"\x7b\x7d"` (an object with no keys)
gives `can_fix = false`. -/
theorem parse_claude_response_missing_can_fix_witness :
    (_parse_claude_response emptyObjLoads "\x7b\x7d" []).can_fix = false :=
  parse_claude_response_missing_can_fix emptyObjLoads "\x7b\x7d" [] "\x7b\x7d" {}
    (by decide) (by decide) rfl rfl
/-- With unique keys, looking up in a filtered association list succeeds
exactly when the original lookup finds an entry that the filter keeps. -/
theorem lookup_filter_isSome_iff (c : DedupCache) (k : Nat) (q : Nat × ℚ → Bool)
    (hnd : (c.map Prod.fst).Nodup) :
    ((c.filter q).lookup k).isSome = true
      ↔ ∃ ts, c.lookup k = some ts ∧ q (k, ts) = true := by
  induction c with
  | nil => simp
  | cons kv rest ih =>
    obtain ⟨k0, t0⟩ := kv
    simp only [List.map_cons, List.nodup_cons] at hnd
    by_cases hk : k = k0
    · subst hk
      cases hq : q (k, t0) with
      | true =>
        simp [List.filter_cons, hq]
      | false =>
        simp only [List.filter_cons, hq, Bool.false_eq_true, if_false]
        have hnone : (rest.filter q).lookup k = none := by
          rw [List.lookup_eq_none_iff]
          intro p hp
          have hne : k ≠ p.1 := by
            intro hkp
            exact hnd.1 (hkp ▸ List.mem_map_of_mem Prod.fst (List.mem_of_mem_filter hp))
          simpa using hne
        rw [hnone]
        simp [hq]
    · have hbk : (k == k0) = false := by simpa using hk
      rw [List.filter_cons]
      cases hq : q (k0, t0) with
      | true =>
        rw [if_pos rfl]
        simp only [List.lookup_cons, hbk]
        exact ih hnd.2
      | false =>
        rw [if_neg (by simp)]
        simp only [List.lookup_cons, hbk]
        exact ih hnd.2

/-- C6: the dedup check-and-record operation first purges entries older than
the TTL; it returns true and records nothing (beyond the purge) when the key
is present with age at most the TTL, and otherwise records the key at the
current time and returns false; for key 42 it returns false at time 1000,
true one second later, and false again at time 4601 once the TTL (3600) has
elapsed. -/
theorem seen_or_record_spec (k : Nat) (now : ℚ) (c : DedupCache)
    (hnd : (c.map Prod.fst).Nodup) :
    ((seen_or_record k now c).1 = true
      ↔ ∃ ts, c.lookup k = some ts ∧ now - ts ≤ _CACHE_TTL_SECONDS)
    ∧ ((seen_or_record k now c).1 = true →
        (seen_or_record k now c).2 = _cleanup_cache now c)
    ∧ ((seen_or_record k now c).1 = false →
        (seen_or_record k now c).2 = (k, now) :: _cleanup_cache now c)
    ∧ (seen_or_record 42 1000 [] = (false, [(42, 1000)])
      ∧ seen_or_record 42 1001 [(42, 1000)] = (true, [(42, 1000)])
      ∧ (seen_or_record 42 4601 [(42, 1000)]).1 = false) := by
  have hq := lookup_filter_isSome_iff c k
    (fun kv => decide ¬(now - kv.2 > _CACHE_TTL_SECONDS)) hnd
  refine ⟨?_, ?_, ?_, ?_, ?_, ?_⟩
  · constructor
    · intro h
      simp only [seen_or_record] at h
      by_cases hs : (((_cleanup_cache now c).lookup k).isSome) = true
      · obtain ⟨ts, hts, hqt⟩ := hq.mp hs
        refine ⟨ts, hts, ?_⟩
        simpa using of_decide_eq_true hqt
      · rw [if_neg (by simpa using hs)] at h
        simp at h
    · rintro ⟨ts, hts, htl⟩
      have hs : (((_cleanup_cache now c).lookup k).isSome) = true := by
        apply hq.mpr
        exact ⟨ts, hts, decide_eq_true (by simpa using htl)⟩
      simp only [seen_or_record]
      rw [if_pos (by simpa using hs)]
  · intro h
    simp only [seen_or_record] at h ⊢
    by_cases hs : (((_cleanup_cache now c).lookup k).isSome) = true
    · rw [if_pos (by simpa using hs)]
    · rw [if_neg (by simpa using hs)] at h
      simp at h
  · intro h
    simp only [seen_or_record] at h ⊢
    by_cases hs : (((_cleanup_cache now c).lookup k).isSome) = true
    · rw [if_pos (by simpa using hs)] at h
      simp at h
    · rw [if_neg (by simpa using hs)]
  · norm_num [seen_or_record, _cleanup_cache]
  · norm_num [seen_or_record, _cleanup_cache, _CACHE_TTL_SECONDS, List.filter_cons]
  · norm_num [seen_or_record, _cleanup_cache, _CACHE_TTL_SECONDS, List.filter_cons]
/-- C6 witness: a key recorded 40 seconds ago is seen as a duplicate. -/
theorem seen_or_record_spec_witness :
    (seen_or_record 7 50 [(7, 10)]).1 = true :=
  ((seen_or_record_spec 7 50 [(7, 10)] (by simp)).1).mpr
    ⟨10, by simp, by norm_num [_CACHE_TTL_SECONDS]⟩

/-- C8: when the stages before the oracle succeed and the oracle consultation
returns a `FixResult` with `can_fix = false`, processing reaches the terminal
not-fixable outcome and the applier, the PR publisher and the fix-published
notification are never invoked. -/
theorem process_not_fixable (env : PEnv) (logs : String) (fr : FixResult)
    (h1 : env.notifyFailureRes = .ok ())
    (h2 : env.fetchLogsRes = .ok logs)
    (h3 : (parse_error_logs logs).errors.isEmpty = false)
    (h4 : env.cloneRes = .ok ())
    (h5 : analyze_failure env.jsonLoads env.source_files env.apiOutcome = .ok fr)
    (h6 : fr.can_fix = false) :
    (process_workflow_failure env).2 = POutcome.notFixable
    ∧ PEvent.applyFix ∉ (process_workflow_failure env).1
    ∧ PEvent.createPr ∉ (process_workflow_failure env).1
    ∧ PEvent.notifyPr ∉ (process_workflow_failure env).1 := by
  simp only [process_workflow_failure, h1, h2, h3, h4, h5, h6]
  simp

/-- C8 witness: the concrete run ends not-fixable without applying a fix,
publishing, or sending the fix notification. -/
theorem process_not_fixable_witness :
    (process_workflow_failure c8Env).2 = POutcome.notFixable
    ∧ PEvent.applyFix ∉ (process_workflow_failure c8Env).1 := by
  have h := process_not_fixable c8Env "Error: boom"
    { can_fix := false, description := "", analysis := "API error: down" }
    rfl rfl (by decide) rfl rfl rfl
  exact ⟨h.1, h.2.1⟩

/-- A string extended on the right keeps its prefix. -/
theorem pyStartsWith_append (p t : String) : pyStartsWith (p ++ t) p = true := by
  simp [pyStartsWith, String.data_append]

/-- C10: signature validation accepts exactly the string
`"sha256=" ++ hex-HMAC` — a missing signature, an empty signature, a
signature without the `sha256=` prefix, and any other mismatch all yield
false, without raising. -/
theorem validate_github_signature_spec (hmacHex : List Nat → List Nat → String)
    (payload : List Nat) (secret : List Nat) (signature : Option String) :
    validate_github_signature hmacHex payload signature secret
      = decide (signature = some ("sha256=" ++ hmacHex secret payload)) := by
  have hEne : ("sha256=" ++ hmacHex secret payload) ≠ "" := by
    intro h
    have := congrArg String.length h
    simp [String.length_append] at this
    exact absurd this.1 (by decide)
  cases signature with
  | none => simp [validate_github_signature]
  | some sig =>
    simp only [validate_github_signature]
    by_cases h0 : sig = ""
    · subst h0
      simp [Ne.symm hEne]
    · rw [if_neg h0]
      by_cases hp : pyStartsWith sig "sha256=" = true
      · simp only [hp, Bool.not_true, Bool.false_eq_true, if_false]
        have : (("sha256=" ++ hmacHex secret payload) == sig)
            = decide (sig = ("sha256=" ++ hmacHex secret payload)) := by
          cases hd : decide (sig = ("sha256=" ++ hmacHex secret payload)) with
          | true => simp [of_decide_eq_true hd]
          | false =>
            have hne := of_decide_eq_false hd
            simp [Ne.symm hne]
        simp [this]
      · have hp2 : pyStartsWith sig "sha256=" = false := by
          revert hp
          cases pyStartsWith sig "sha256=" <;> simp
        simp only [hp2, Bool.not_false, if_true]
        have hne : sig ≠ "sha256=" ++ hmacHex secret payload := by
          intro h
          rw [h, pyStartsWith_append] at hp2
          exact absurd hp2 (by simp)
        simp [hne]
